import Mathlib

/-!
Verification of `object_placement.py` (yairshp/HIVE).

The script batch-generates edited images with a latent-diffusion editing
model.  We give a shallow embedding of the parts of the script that the
specification's claims are about:

* `CFGDenoiser.forward` (lines 42-68): the classifier-free-guidance
  denoiser.  Tensors are modelled as exact-rational-valued functions on an
  arbitrary index type; a batch of three tensors is a function on
  `Fin 3 × ι`, with `torch.cat`/`.chunk(3)` modelled by `cat3`/`chunk3`
  and `einops.repeat` by `repeat3`.  The inner network is an arbitrary
  function on the batched inputs.
* `load_model_from_config` (lines 71-96): state dictionaries are
  association lists with `String` keys (Python dicts preserve insertion
  order and have unique keys); the VAE-merge dict comprehension is
  `vaeMergedSD`, with `none` modelling the uncaught `KeyError`.  The
  external `load_state_dict(..., strict=False)` call is an arbitrary
  function returning the (missing, unexpected) key lists; the returned
  model is represented by the state dict it was loaded from.
* `main`'s per-job loop (lines 149-183): the instruction string builder
  `mkEdit`, the mutable-`cond`-dict trace `loopCondTrace`, the
  RNG-reseeding trace `jobInitNoises` (global generator state threaded
  explicitly, the sampler's own draws advancing it between jobs), and the
  sequence of saved file paths `savedPaths` / the resulting directory
  contents `filesAfterRun` (a later save to the same path overwrites).

Python string primitives `k.startswith(p)` and `k[n:]` are modelled
character-wise on `String.data` (`strStarts`, `strDropChars`), and float
scalars by exact rationals.
-/

namespace HIVE

/-- A tensor with index type `ι`; entries are modelled as exact rationals
(the code computes with floats). -/
abbrev Tensor (ι : Type) := ι → ℚ

/-- A tensor batched along a leading batch dimension of size 3. -/
abbrev BTensor (ι : Type) := Fin 3 × ι → ℚ

/-- Model of `einops.repeat(z, "1 ... -> n ...", n=3)`: the singleton batch
dimension of `z` is replicated three times. -/
def repeat3 {ι : Type} (z : Tensor ι) : BTensor ι := fun p => z p.2

/-- Model of `torch.cat([a, b, c])` along the batch dimension. -/
def cat3 {ι : Type} (a b c : Tensor ι) : BTensor ι := fun p =>
  match p.1 with
  | 0 => a p.2
  | 1 => b p.2
  | 2 => c p.2

/-- Model of `t.chunk(3)`: the `i`-th of the three equal slices of a
batch-3 tensor. -/
def chunk3 {ι : Type} (t : BTensor ι) (i : Fin 3) : Tensor ι := fun x => t (i, x)

/-- A conditioning dictionary as used by the script: the single-element
lists `cond["c_crossattn"]` / `cond["c_concat"]` are represented by their
unique element (`[0]` indexing), a text-embedding tensor and an
image-latent tensor.  In `main`, `z` is drawn with `randn_like` of the
image latent, so the latent state and `c_concat` share the index type. -/
structure CondDict (ι E : Type) where
  c_crossattn : Tensor E
  c_concat : Tensor ι

/-- A conditioning dictionary whose entries are batch-3 tensors. -/
structure BCondDict (ι E : Type) where
  c_crossattn : BTensor E
  c_concat : BTensor ι

/-- The combined conditioning batch `cfg_cond` built in
`CFGDenoiser.forward` (lines 45-60): crossattn = cat(cond, uncond, uncond),
concat = cat(cond, cond, uncond). -/
def cfgCond {ι E : Type} (cond uncond : CondDict ι E) : BCondDict ι E where
  c_crossattn := cat3 cond.c_crossattn uncond.c_crossattn uncond.c_crossattn
  c_concat := cat3 cond.c_concat cond.c_concat uncond.c_concat

/-- The wrapped denoising network: an arbitrary function of the batched
latent, batched sigma and batched conditioning (external collaborator). -/
abbrev InnerModel (ι J E : Type) := BTensor ι → BTensor J → BCondDict ι E → BTensor ι

/-- Shallow embedding of `CFGDenoiser.forward` (lines 42-68). -/
def CFGDenoiser.forward {ι J E : Type} (inner_model : InnerModel ι J E)
    (z : Tensor ι) (sigma : Tensor J) (cond uncond : CondDict ι E)
    (text_cfg_scale image_cfg_scale : ℚ) : Tensor ι :=
  let cfg_z := repeat3 z
  let cfg_sigma := repeat3 sigma
  let cfg_cond := cfgCond cond uncond
  let out := inner_model cfg_z cfg_sigma cfg_cond
  let out_cond := chunk3 out 0
  let out_img_cond := chunk3 out 1
  let out_uncond := chunk3 out 2
  out_uncond + text_cfg_scale • (out_cond - out_img_cond)
    + image_cfg_scale • (out_img_cond - out_uncond)

/-- Python `k.startswith(pre)`, modelled character-wise. -/
def strStarts (k pre : String) : Bool := pre.data.isPrefixOf k.data

/-- Python `k[n:]` (drop the first `n` characters), modelled character-wise. -/
def strDropChars (k : String) (n : Nat) : String := ⟨k.data.drop n⟩

/-- A `torch.load` result as consumed by `load_model_from_config`: an
optional `global_step` entry and a `state_dict`, the latter an association
list (a Python dict: insertion-ordered, unique keys) from parameter names
to tensor values `V`. -/
structure TorchCkpt (V : Type) where
  global_step : Option Nat
  state_dict : List (String × V)

/-- The VAE-merge dict comprehension of `load_model_from_config`
(lines 80-87): every key starting with `"first_stage_model."` is re-bound
to the VAE state dict's value under the prefix-stripped key, every other
binding is kept.  A missing stripped key in the VAE dict is a `KeyError`,
modelled by `none`. -/
def vaeMergedSD {V : Type} (vae_sd : List (String × V)) :
    List (String × V) → Option (List (String × V))
  | [] => some []
  | (k, v) :: rest =>
    if strStarts k "first_stage_model." then
      match vae_sd.lookup (strDropChars k "first_stage_model.".length),
          vaeMergedSD vae_sd rest with
      | some w, some rest2 => some ((k, w) :: rest2)
      | _, _ => none
    else
      (vaeMergedSD vae_sd rest).map (fun rest2 => (k, v) :: rest2)

/-- The lines printed by `load_model_from_config` before the state dict is
applied: the unconditional `"Loading model from ..."`, the optional
`"Global Step: ..."`, and, when a VAE checkpoint is given, the
`"Loading VAE from ..."` line (lines 72-78). -/
def headerLog {V : Type} (ckpt : String) (pl_sd : TorchCkpt V)
    (vae_ckpt : Option (String × TorchCkpt V)) : List String :=
  ["Loading model from " ++ ckpt]
    ++ (match pl_sd.global_step with
        | some gs => ["Global Step: " ++ toString gs]
        | none => [])
    ++ (match vae_ckpt with
        | some pv => ["Loading VAE from " ++ pv.1]
        | none => [])

/-- The lines printed about missing/unexpected keys after
`load_state_dict` (lines 90-95): each report is emitted only when the
corresponding list is nonempty AND `verbose` is set. -/
def keyLoadLog (verbose : Bool) (m u : List String) : List String :=
  (if 0 < m.length ∧ verbose = true then ["missing keys:", toString m] else [])
    ++ (if 0 < u.length ∧ verbose = true then ["unexpected keys:", toString u] else [])

/-- Shallow embedding of `load_model_from_config` (lines 71-96).
`loadSD` is the external `model.load_state_dict(sd, strict=False)` call,
returning the (missing, unexpected) key lists; it never raises.  The
result is `none` on the uncaught `KeyError` of the VAE merge, otherwise
the printed lines together with the state dict the returned model was
loaded from. -/
def load_model_from_config {V : Type}
    (loadSD : List (String × V) → List String × List String)
    (ckpt : String) (pl_sd : TorchCkpt V)
    (vae_ckpt : Option (String × TorchCkpt V)) (verbose : Bool) :
    Option (List String × List (String × V)) :=
  let sd? : Option (List (String × V)) :=
    match vae_ckpt with
    | none => some pl_sd.state_dict
    | some pv => vaeMergedSD pv.2.state_dict pl_sd.state_dict
  match sd? with
  | none => none
  | some sd =>
    let mu := loadSD sd
    some (headerLog ckpt pl_sd vae_ckpt ++ keyLoadLog verbose mu.1 mu.2, sd)

/-- One row of the job table (columns `bg_image_path`, `object_to_add`,
`filename`). -/
structure JobRow where
  bg_image_path : String
  object_to_add : String
  filename : String

/-- The instruction string built for a row (line 156):
`edit = f"add a {object_to_add}, image quality is five out of five"`. -/
def mkEdit (object_to_add : String) : String :=
  s!"add a {object_to_add}, image quality is five out of five"

/-- The mutable `cond` dictionary of `main`'s loop: each entry is `none`
while unset (the loop starts from `cond = {}`). -/
abbrev CondState (E I : Type) := Option E × Option I

/-- Trace of `main`'s per-job loop restricted to the conditioning
dictionaries (lines 148-164): the single mutable `cond` dict is threaded
through the iterations; each iteration first overwrites `c_crossattn`
from the row's instruction, then `c_concat` from the row's encoded
background, and then builds a fresh `uncond` dict from the run-level
`null_token` and `torch.zeros_like(cond["c_concat"][0])`.  The list
records, per job, the `cond` state and the `uncond` pair at the moment
the sampler is invoked.  `embed` models `model.get_learned_conditioning`
and `encodeBg` the background preprocessing plus
`model.encode_first_stage(...).mode()`. -/
def loopCondTrace {E I : Type} (embed : String → E) (encodeBg : String → I)
    (null_token : E) (zeros_like : I → I) :
    List JobRow → CondState E I → List (CondState E I × (E × Option I))
  | [], _ => []
  | r :: rest, cond =>
    let cond1 : CondState E I := (some (embed (mkEdit r.object_to_add)), cond.2)
    let cond2 : CondState E I := (cond1.1, some (encodeBg r.bg_image_path))
    let uncond : E × Option I := (null_token, cond2.2.map zeros_like)
    (cond2, uncond) :: loopCondTrace embed encodeBg null_token zeros_like rest cond2

/-- RNG-state projection of `main`'s per-job loop (lines 149-183).  The
global generator state `G` is threaded explicitly: each iteration first
calls `torch.manual_seed(seed)` (resetting the state; one seed per run),
then draws the job's initial noise with `torch.randn_like` on the job's
latent shape, and then runs the ancestral sampler, whose own noise draws
advance the state (`samplerDraws`) before the next job begins.  The list
records each job's initial noise tensor, before the `* sigmas[0]`
scaling. -/
def jobInitNoises {G N Sh : Type} (manual_seed : Nat → G)
    (randn : G → Sh → N × G) (samplerDraws : G → G) (seed : Nat) :
    List Sh → G → List N
  | [], _ => []
  | sh :: rest, _ =>
    let g1 := manual_seed seed
    let zg := randn g1 sh
    zg.1 :: jobInitNoises manual_seed randn samplerDraws seed rest (samplerDraws zg.2)

/-- The file path written for a row (line 183):
`os.path.join(args.output_dir, f"{filename}.png")`. -/
def savedPath (output_dir : String) (r : JobRow) : String :=
  output_dir ++ "/" ++ r.filename ++ ".png"

/-- The sequence of save operations performed by `main`'s loop, in order:
one `Image.save` per row of the job table. -/
def savedPaths (output_dir : String) (rows : List JobRow) : List String :=
  rows.map (savedPath output_dir)

/-- The distinct files present in the output directory after the run: a
later save to an already-written path overwrites the earlier file. -/
def filesAfterRun (output_dir : String) (rows : List JobRow) : List String :=
  (savedPaths output_dir rows).dedup

/-- A concrete `load_state_dict` outcome reporting one missing key and no
unexpected keys, used to exercise `load_model_from_config`. -/
def loadSDmissW : List (String × Nat) → List String × List String :=
  fun _ => (["model.diffusion.wXYZ"], [])

/-- C1: for every latent `z`, noise level `sigma`, positive and null
bundle, and all scalars, `CFGDenoiser.forward` returns exactly
`out_uncond + text_scale * (out_cond - out_image_cond)
 + image_scale * (out_image_cond - out_uncond)`, where the three branch
outputs are the three chunks of the inner model's output on the 3-way
batch. -/
theorem C1_cfg_combination_formula {ι J E : Type} (inner_model : InnerModel ι J E)
    (z : Tensor ι) (sigma : Tensor J) (cond uncond : CondDict ι E)
    (text_scale image_scale : ℚ) :
    CFGDenoiser.forward inner_model z sigma cond uncond text_scale image_scale =
      chunk3 (inner_model (repeat3 z) (repeat3 sigma) (cfgCond cond uncond)) 2
        + text_scale •
          (chunk3 (inner_model (repeat3 z) (repeat3 sigma) (cfgCond cond uncond)) 0
            - chunk3 (inner_model (repeat3 z) (repeat3 sigma) (cfgCond cond uncond)) 1)
        + image_scale •
          (chunk3 (inner_model (repeat3 z) (repeat3 sigma) (cfgCond cond uncond)) 1
            - chunk3 (inner_model (repeat3 z) (repeat3 sigma) (cfgCond cond uncond)) 2) :=
  rfl

/-- C2: on every call the Guided Denoiser replicates the latent and sigma
three times; the 3-element conditioning batch has branch A =
(positive text, positive image), branch B = (null text, positive image),
branch C = (null text, null image) — with, at `main`'s call site, positive
text = the instruction embedding, positive image = the background latent,
null text = the null embedding and null image = the zero latent; and the
result is the recombination of the three chunks, in that order, of one
evaluation of the network on this batch. -/
theorem C2_three_way_batch {ι J E : Type} (inner_model : InnerModel ι J E)
    (z : Tensor ι) (sigma : Tensor J) (cond uncond : CondDict ι E)
    (text_scale image_scale : ℚ) :
    (∀ i : Fin 3, chunk3 (repeat3 z) i = z) ∧
    (∀ i : Fin 3, chunk3 (repeat3 sigma) i = sigma) ∧
    chunk3 (cfgCond cond uncond).c_crossattn 0 = cond.c_crossattn ∧
    chunk3 (cfgCond cond uncond).c_crossattn 1 = uncond.c_crossattn ∧
    chunk3 (cfgCond cond uncond).c_crossattn 2 = uncond.c_crossattn ∧
    chunk3 (cfgCond cond uncond).c_concat 0 = cond.c_concat ∧
    chunk3 (cfgCond cond uncond).c_concat 1 = cond.c_concat ∧
    chunk3 (cfgCond cond uncond).c_concat 2 = uncond.c_concat ∧
    CFGDenoiser.forward inner_model z sigma cond uncond text_scale image_scale =
      (fun out => chunk3 out 2 + text_scale • (chunk3 out 0 - chunk3 out 1)
          + image_scale • (chunk3 out 1 - chunk3 out 2))
        (inner_model (repeat3 z) (repeat3 sigma) (cfgCond cond uncond)) := by
  refine ⟨fun i => rfl, fun i => rfl, ?_, ?_, ?_, ?_, ?_, ?_, rfl⟩ <;> funext x <;> rfl

/-- C3: with `text_scale = 0` and `image_scale = 0` the Guided Denoiser's
output equals the raw unconditional branch output `out_uncond` exactly, as
an algebraic identity holding for every inner model and all inputs. -/
theorem C3_zero_scales_give_uncond {ι J E : Type} (inner_model : InnerModel ι J E)
    (z : Tensor ι) (sigma : Tensor J) (cond uncond : CondDict ι E) :
    CFGDenoiser.forward inner_model z sigma cond uncond 0 0 =
      chunk3 (inner_model (repeat3 z) (repeat3 sigma) (cfgCond cond uncond)) 2 := by
  simp [CFGDenoiser.forward]

/-- C5: holding the three branch outputs fixed (same inner model and
inputs), scaling both guidance weights by `k` scales the deviation of the
Guided Denoiser's output from `out_uncond` by exactly `k`. -/
theorem C5_guidance_linearity {ι J E : Type} (inner_model : InnerModel ι J E)
    (z : Tensor ι) (sigma : Tensor J) (cond uncond : CondDict ι E)
    (k text_scale image_scale : ℚ) :
    CFGDenoiser.forward inner_model z sigma cond uncond
        (k * text_scale) (k * image_scale)
        - chunk3 (inner_model (repeat3 z) (repeat3 sigma) (cfgCond cond uncond)) 2 =
      k • (CFGDenoiser.forward inner_model z sigma cond uncond text_scale image_scale
        - chunk3 (inner_model (repeat3 z) (repeat3 sigma) (cfgCond cond uncond)) 2) := by
  funext x
  simp only [CFGDenoiser.forward, Pi.add_apply, Pi.sub_apply, Pi.smul_apply,
    smul_eq_mul]
  ring

/-- C4 counterexample: for the row value `object_to_add = "dog"` the
instruction built by `main` is not the bare phrase `"add a dog"`; the
suffix `", image quality is five out of five"` is appended. -/
theorem C4_counterexample : mkEdit "dog" ≠ "add a dog" := by decide

/-- C4 amended: the instruction used for a row is exactly
`"add a " ++ object_to_add ++ ", image quality is five out of five"` —
the phrase `add a <object>` with the fixed image-quality suffix appended,
and nothing else. -/
theorem C4_instruction_text (object_to_add : String) :
    mkEdit object_to_add =
      "add a " ++ object_to_add ++ ", image quality is five out of five" :=
  rfl

/-- C6 counterexample: as invoked by `main` — `load_model_from_config(config,
args.ckpt, args.vae_ckpt)`, with `verbose` left at its default `False` — a
load whose `load_state_dict` reports a missing key prints only the header
line: the missing key names are NOT printed, though the load still
succeeds and returns the model. -/
theorem C6_counterexample :
    0 < (loadSDmissW [("betas", 1)]).1.length ∧
    load_model_from_config loadSDmissW "checkpoints/hive_rw_label.ckpt"
        ⟨none, [("betas", 1)]⟩ none false =
      some (["Loading model from checkpoints/hive_rw_label.ckpt"], [("betas", 1)]) ∧
    "missing keys:" ∉ ["Loading model from checkpoints/hive_rw_label.ckpt"] ∧
    toString ["model.diffusion.wXYZ"]
      ∉ ["Loading model from checkpoints/hive_rw_label.ckpt"] := by
  refine ⟨by decide, rfl, by decide, by decide⟩

/-- C6 amended: key mismatches are non-fatal — `load_model_from_config`
returns the model with whatever weights loaded — but the missing and
unexpected key names are printed only when `verbose = True`; `main`
invokes it with `verbose` at its default `False`, so no key names are
printed. -/
theorem C6_nonfatal_verbose_gated_load {V : Type}
    (loadSD : List (String × V) → List String × List String)
    (ckpt : String) (pl_sd : TorchCkpt V) :
    load_model_from_config loadSD ckpt pl_sd none false =
      some (headerLog ckpt pl_sd none, pl_sd.state_dict) ∧
    (∀ m u : List String, keyLoadLog false m u = []) ∧
    (∀ m u : List String, 0 < m.length →
      "missing keys:" ∈ keyLoadLog true m u ∧ toString m ∈ keyLoadLog true m u) ∧
    (∀ m u : List String, 0 < u.length →
      "unexpected keys:" ∈ keyLoadLog true m u ∧ toString u ∈ keyLoadLog true m u) := by
  refine ⟨by simp [load_model_from_config, keyLoadLog], by simp [keyLoadLog],
    fun m u h => ?_, fun m u h => ?_⟩ <;> simp [keyLoadLog, h]

/-- C6 witness: the amended theorem applied to a concrete load with one
missing and one unexpected key. -/
theorem C6_witness :
    load_model_from_config loadSDmissW "c.ckpt" ⟨none, [("betas", 1)]⟩ none false =
      some (headerLog "c.ckpt" (⟨none, [("betas", 1)]⟩ : TorchCkpt Nat) none,
        [("betas", 1)]) ∧
    "missing keys:" ∈ keyLoadLog true ["k1"] ["k2"] ∧
    "unexpected keys:" ∈ keyLoadLog true ["k1"] ["k2"] := by
  obtain ⟨h1, _h2, h3, h4⟩ :=
    C6_nonfatal_verbose_gated_load loadSDmissW "c.ckpt" ⟨none, [("betas", 1)]⟩
  exact ⟨h1, (h3 ["k1"] ["k2"] (by decide)).1, (h4 ["k1"] ["k2"] (by decide)).1⟩

/-- The per-job initial noise is a function of the run seed and the job's
latent shape alone: reseeding erases whatever generator state the
previous job's sampler left behind. -/
theorem jobInitNoises_eq_map {G N Sh : Type} (manual_seed : Nat → G)
    (randn : G → Sh → N × G) (samplerDraws : G → G) (seed : Nat)
    (shapes : List Sh) (g : G) :
    jobInitNoises manual_seed randn samplerDraws seed shapes g =
      shapes.map (fun sh => (randn (manual_seed seed) sh).1) := by
  induction shapes generalizing g with
  | nil => rfl
  | cons sh rest ih => simp [jobInitNoises, ih]

/-- C7: one seed per run, re-applied to the generator immediately before
each job's noise draw; hence any two jobs of the same run whose latents
have the same shape receive identical initial noise tensors (before the
`sigmas[0]` scaling), whatever randomness the sampler consumed in
between. -/
theorem C7_reseed_shared_noise {G N Sh : Type} (manual_seed : Nat → G)
    (randn : G → Sh → N × G) (samplerDraws : G → G) (seed : Nat)
    (shapes : List Sh) (g : G) (i j : Nat) (h : shapes[i]? = shapes[j]?) :
    (jobInitNoises manual_seed randn samplerDraws seed shapes g)[i]? =
      (jobInitNoises manual_seed randn samplerDraws seed shapes g)[j]? := by
  rw [jobInitNoises_eq_map, List.getElem?_map, List.getElem?_map, h]

/-- C7 witness: a concrete three-job run (latent shapes 3, 5, 3) over a
concrete generator model; jobs 0 and 2 share their initial noise. -/
theorem C7_witness :
    (([3, 5, 3] : List Nat)[0]? = ([3, 5, 3] : List Nat)[2]?) ∧
    (jobInitNoises id (fun g sh => (g * 1000 + sh, g + 1)) Nat.succ 42
        [3, 5, 3] 0)[0]? =
      (jobInitNoises id (fun g sh => (g * 1000 + sh, g + 1)) Nat.succ 42
        [3, 5, 3] 0)[2]? :=
  ⟨by decide, C7_reseed_shared_noise id (fun g sh => (g * 1000 + sh, g + 1))
    Nat.succ 42 [3, 5, 3] 0 0 2 (by decide)⟩

/-- C8 counterexample: a 2-row job table whose rows share the `filename`
value `"img"` leaves a single file in the output directory — the second
save overwrites the first — so a completed run does not write exactly
N files for every N-row table. -/
theorem C8_counterexample :
    ([(⟨"a.jpg", "dog", "img"⟩ : JobRow), ⟨"b.jpg", "cat", "img"⟩] : List JobRow).length = 2 ∧
    (filesAfterRun "out" [⟨"a.jpg", "dog", "img"⟩, ⟨"b.jpg", "cat", "img"⟩]).length = 1 := by
  refine ⟨rfl, by decide⟩

/-- Rows with distinct `filename` values are saved to distinct paths:
`<dir>/<filename>.png` determines `filename`. -/
theorem savedPath_filename_inj (output_dir : String) {r s : JobRow}
    (h : savedPath output_dir r = savedPath output_dir s) :
    r.filename = s.filename := by
  have hd : (output_dir ++ "/").data ++ (r.filename.data ++ ".png".data) =
      (output_dir ++ "/").data ++ (s.filename.data ++ ".png".data) := by
    have := congrArg String.data h
    simpa [savedPath, List.append_assoc] using this
  exact String.ext (List.append_cancel_right (List.append_cancel_left hd))

/-- C8 amended: the loop performs exactly one save per row, to the path
`<output_dir>/<filename>.png`; provided the `filename` column's values
are pairwise distinct, the output directory ends up with exactly N
files, one per row, named `<filename>.png`. -/
theorem C8_output_files (output_dir : String) (rows : List JobRow)
    (h : (rows.map JobRow.filename).Nodup) :
    (savedPaths output_dir rows).length = rows.length ∧
    savedPaths output_dir rows =
      rows.map (fun r => output_dir ++ "/" ++ r.filename ++ ".png") ∧
    filesAfterRun output_dir rows = savedPaths output_dir rows ∧
    (filesAfterRun output_dir rows).length = rows.length := by
  have hmap : savedPaths output_dir rows =
      (rows.map JobRow.filename).map
        (fun f => output_dir ++ "/" ++ f ++ ".png") := by
    simp [savedPaths, savedPath, List.map_map, Function.comp_def]
  have hnd : (savedPaths output_dir rows).Nodup := by
    rw [hmap]
    refine h.map fun f1 f2 hf => ?_
    exact savedPath_filename_inj output_dir
      (r := ⟨"", "", f1⟩) (s := ⟨"", "", f2⟩) hf
  have hded : filesAfterRun output_dir rows = savedPaths output_dir rows :=
    List.dedup_eq_self.2 hnd
  refine ⟨by simp [savedPaths], rfl, hded, by rw [hded]; simp [savedPaths]⟩

/-- C8 witness: a concrete 2-row table with distinct filenames yields
exactly 2 output files. -/
theorem C8_witness :
    (([(⟨"a.jpg", "dog", "f1"⟩ : JobRow), ⟨"b.jpg", "cat", "f2"⟩] : List JobRow).map
      JobRow.filename).Nodup ∧
    (filesAfterRun "out" [⟨"a.jpg", "dog", "f1"⟩, ⟨"b.jpg", "cat", "f2"⟩]).length = 2 :=
  ⟨by decide,
    (C8_output_files "out" [⟨"a.jpg", "dog", "f1"⟩, ⟨"b.jpg", "cat", "f2"⟩]
      (by decide)).2.2.2⟩

/-- The VAE merge, elementwise: when every `first_stage_model.`-prefixed
key of the main state dict has its stripped form bound in the VAE state
dict, the comprehension succeeds and rebinds exactly the prefixed keys. -/
theorem vaeMergedSD_eq_map {V : Type} (vae_sd : List (String × V)) :
    ∀ sd : List (String × V),
      (∀ kv ∈ sd, strStarts kv.1 "first_stage_model." = true →
        (vae_sd.lookup (strDropChars kv.1 "first_stage_model.".length)).isSome = true) →
      vaeMergedSD vae_sd sd =
        some (sd.map (fun kv =>
          if strStarts kv.1 "first_stage_model." = true then
            (kv.1, (vae_sd.lookup
              (strDropChars kv.1 "first_stage_model.".length)).getD kv.2)
          else kv))
  | [], _ => rfl
  | (k, v) :: rest, h => by
    have hrest := vaeMergedSD_eq_map vae_sd rest fun kv hkv => h kv (by simp [hkv])
    by_cases hs : strStarts k "first_stage_model." = true
    · obtain ⟨w, hw⟩ := Option.isSome_iff_exists.1 (h (k, v) (by simp) hs)
      simp only [vaeMergedSD, hs, if_true, hw, hrest]
      simp [hs, hw]
    · simp only [vaeMergedSD, hs, if_false, hrest, Option.map_some]
      simp [hs]

/-- C9: with a VAE checkpoint supplied, the merged state dict has exactly
the key sequence of the main checkpoint's state dict; every
`first_stage_model.`-prefixed key takes the VAE checkpoint's value under
the prefix-stripped key, and every other key keeps its main-checkpoint
value unchanged (stated under the hypothesis that each stripped key is
bound in the VAE dict — otherwise the comprehension raises `KeyError`). -/
theorem C9_vae_merge (vae_sd sd : List (String × Nat))
    (h : ∀ kv ∈ sd, strStarts kv.1 "first_stage_model." = true →
      (vae_sd.lookup (strDropChars kv.1 "first_stage_model.".length)).isSome = true) :
    ∃ sd2, vaeMergedSD vae_sd sd = some sd2 ∧
      sd2.map Prod.fst = sd.map Prod.fst ∧
      sd2 = sd.map (fun kv =>
        if strStarts kv.1 "first_stage_model." = true then
          (kv.1, (vae_sd.lookup
            (strDropChars kv.1 "first_stage_model.".length)).getD kv.2)
        else kv) := by
  refine ⟨_, vaeMergedSD_eq_map vae_sd sd h, ?_, rfl⟩
  rw [List.map_map]
  refine List.map_congr_left fun kv _ => ?_
  by_cases hs : strStarts kv.1 "first_stage_model." = true <;> simp [hs]

/-- C9 witness: a concrete main state dict with one prefixed and one
unprefixed key, merged against a concrete VAE state dict. -/
theorem C9_witness :
    (∀ kv ∈ ([("first_stage_model.encoder.w", 1), ("betas", 2)] : List (String × Nat)),
      strStarts kv.1 "first_stage_model." = true →
      (([("encoder.w", 7)] : List (String × Nat)).lookup
        (strDropChars kv.1 "first_stage_model.".length)).isSome = true) ∧
    vaeMergedSD [("encoder.w", 7)] [("first_stage_model.encoder.w", 1), ("betas", 2)] =
      some [("first_stage_model.encoder.w", 7), ("betas", 2)] := by
  obtain ⟨sd2, h1, _h2, h3⟩ :=
    C9_vae_merge [("encoder.w", 7)] [("first_stage_model.encoder.w", 1), ("betas", 2)]
      (by decide)
  refine ⟨by decide, ?_⟩
  rw [h1, h3]
  decide

/-- C10: although `main` threads one mutable `cond` dictionary through the
loop, each iteration overwrites both entries from the current row before
the sampler runs, and `uncond` is rebuilt from the run-level null token
and zeros shaped like the freshly stored background latent; consequently
the per-job conditioning bundles are the same for any two initial
dictionary states, and equal a per-row function of the row's data and
the null token alone. -/
theorem C10_cond_overwritten_per_job {E I : Type} (embed : String → E)
    (encodeBg : String → I) (null_token : E) (zeros_like : I → I)
    (rows : List JobRow) (init1 init2 : CondState E I) :
    loopCondTrace embed encodeBg null_token zeros_like rows init1 =
      rows.map (fun r =>
        ((some (embed (mkEdit r.object_to_add)), some (encodeBg r.bg_image_path)),
          (null_token, some (zeros_like (encodeBg r.bg_image_path))))) ∧
    loopCondTrace embed encodeBg null_token zeros_like rows init1 =
      loopCondTrace embed encodeBg null_token zeros_like rows init2 := by
  have key : ∀ (rs : List JobRow) (init : CondState E I),
      loopCondTrace embed encodeBg null_token zeros_like rs init =
        rs.map (fun r =>
          ((some (embed (mkEdit r.object_to_add)), some (encodeBg r.bg_image_path)),
            (null_token, some (zeros_like (encodeBg r.bg_image_path))))) := by
    intro rs
    induction rs with
    | nil => intro init; rfl
    | cons r rest ih => intro init; simp [loopCondTrace, ih]
  exact ⟨key rows init1, (key rows init1).trans (key rows init2).symm⟩

end HIVE
